import Mathlib

/-!
Verification of the kanjidic decode pipeline (src/src/kanjidic.rs) against its
natural-language specification.  The Rust source is shallowly embedded: every
parser function becomes a Lean function over an explicit tree-node type, with
`Except ParseError` standing for Rust's `Result<_, ParseError>`.  The generic
XML-navigation collaborator (the `util` module, which is not part of the core
source) is modelled from the spec's description of its contract, as marked in
the relevant doc comments.
-/

/-- Error taxonomy of the loader (crate::errors, surfaced through the spec's
error-kind list in §7): missing required element, missing required attribute,
missing/empty text content, enumeration error (offending value plus accepted
values), numeric conversion error, radical-lookup failure. -/
inductive ParseError : Type where
  | missingTag (tag : String)
  | missingAttr (attr : String)
  | missingText (tag : String)
  | enumError (value : String) (valids : List String)
  | numError (text : String)
  | lookupError (idx : Nat)
deriving DecidableEq

/-- Modelled from the spec: the generic labeled-tree node provided by the
tree-parsing collaborator (roxmltree `Node`, out of scope per §1).  A node has
a tag name, attributes in document order, text content (absent text is
modelled as the empty string, which the spec's text extractor treats the same
as empty), and element children in document order. -/
inductive XmlNode : Type where
  | mk (tag : String) (attrs : List (String × String)) (text : String)
       (children : List XmlNode)

def XmlNode.tag : XmlNode → String
  | .mk t _ _ _ => t

def XmlNode.attrs : XmlNode → List (String × String)
  | .mk _ a _ _ => a

def XmlNode.text : XmlNode → String
  | .mk _ _ t _ => t

def XmlNode.children : XmlNode → List XmlNode
  | .mk _ _ _ c => c

/-- Modelled from the spec: raw attribute access of the tree collaborator
(roxmltree `Node::attribute`), returning the first attribute with the given
name, if any. -/
def XmlNode.attr (n : XmlNode) (name : String) : Option String :=
  n.attrs.lookup name

/-- Modelled from the spec: `util::get_node_attr` (not under src/) —
"attribute lookup by name (fails if absent)" (§6). -/
def get_node_attr (n : XmlNode) (name : String) : Except ParseError String :=
  match n.attr name with
  | some v => .ok v
  | none => .error (.missingAttr name)

/-- Modelled from the spec: `util::get_node_text` (not under src/) — "owned
text-content extraction (fails if absent/empty)" (§6). -/
def get_node_text (n : XmlNode) : Except ParseError String :=
  if n.text = "" then .error (.missingText n.tag) else .ok n.text

/-- Modelled from the spec: `util::find_child_tag_err` (not under src/) —
locates a mandatory child by tag name, failing with a missing-required-element
error naming the tag (§4.1, §7). -/
def find_child_tag_err (n : XmlNode) (tag : String) : Except ParseError XmlNode :=
  match n.children.find? (fun c => c.tag == tag) with
  | some c => .ok c
  | none => .error (.missingTag tag)

def digitsToNat (cs : List Char) : Nat :=
  cs.foldl (fun a c => a * 10 + (c.toNat - 48)) 0

/-- Drops the single optional leading plus sign Rust's unsigned parser
accepts. -/
def stripPlus : List Char → List Char
  | '+' :: rest => rest
  | cs => cs

/-- Modelled from the spec: Rust's `str::parse::<u32>` (standard library, out
of scope) — accepts an optional leading plus sign followed by one or more
ASCII digits whose value fits in 32 bits; anything else is a numeric
conversion error. -/
def parseU32 (s : String) : Except ParseError Nat :=
  if (stripPlus s.data).isEmpty then .error (.numError s)
  else if (stripPlus s.data).all Char.isDigit then
    if digitsToNat (stripPlus s.data) < 4294967296 then
      .ok (digitsToNat (stripPlus s.data))
    else .error (.numError s)
  else .error (.numError s)

instance {ε α : Type} [DecidableEq ε] [DecidableEq α] : DecidableEq (Except ε α) :=
  fun x y =>
    match x, y with
    | .ok a, .ok b =>
      if h : a = b then .isTrue (by rw [h])
      else .isFalse (by intro hc; cases hc; exact h rfl)
    | .error a, .error b =>
      if h : a = b then .isTrue (by rw [h])
      else .isFalse (by intro hc; cases hc; exact h rfl)
    | .ok _, .error _ => .isFalse (by intro hc; cases hc)
    | .error _, .ok _ => .isFalse (by intro hc; cases hc)

/-! The data model, transliterated from the Rust type definitions. -/

structure Codepoint : Type where
  standard : String
  value : String
deriving DecidableEq

inductive OnyomiType : Type where
  | Kan
  | Go
  | Tou
  | Kanyou
  | None
deriving DecidableEq

inductive ReadingType : Type where
  | Pinyin
  | KoreanR
  | KoreanH
  | Vietnam
  | Onyomi (approved : Bool) (typ : OnyomiType)
  | Kunyomi (approved : Bool)
deriving DecidableEq

structure Reading : Type where
  value : String
  typ : ReadingType
deriving DecidableEq

structure Meaning : Type where
  content : String
  language : String
deriving DecidableEq

structure ReadingMeaning : Type where
  readings : List Reading
  meanings : List Meaning
deriving DecidableEq

inductive RadicalType : Type where
  | Classical
  | NelsonC
deriving DecidableEq

structure Radical : Type where
  classification : RadicalType
  value : String
deriving DecidableEq

inductive Grade : Type where
  | Kyouiku (year : Nat)
  | Jouyou
  | Jinmeiyou
  | JouyouVariant
deriving DecidableEq

inductive DicRef : Type where
  | NelsonC (num : String)
  | NelsonN (num : String)
  | HalpernNJECD (num : String)
  | HalpernKKD (num : String)
  | HalpernKKLD (num : String)
  | HalpernKKLD2 (num : String)
  | Heisig (num : String)
  | Heisig6 (num : String)
  | Gakken (num : String)
  | OneillNames (num : String)
  | OneillKK (num : String)
  | NeillKK (num : String)
  | Moro (num : String) (vol : Option Nat) (page : Option Nat)
  | Henshall (num : String)
  | SHKK (num : String)
  | SHKK2 (num : String)
  | Sakade (num : String)
  | JFCards (num : String)
  | Henshall3 (num : String)
  | TuttCards (num : String)
  | Crowley (num : String)
  | InContext (num : String)
  | BusyPeople (num : String)
  | KodanshaCompact (num : String)
  | Maniette (num : String)
deriving DecidableEq

structure Entry : Type where
  literal : String
  codepoints : List Codepoint
  reading_meanings : List ReadingMeaning
  nanori_readings : List String
  radicals : List Radical
  stroke_count : Nat
  stroke_miscounts : List Nat
  grade : Option Grade
  freq : Option Nat
  old_jlpt : Option Nat
  dic_refs : List DicRef
deriving DecidableEq

structure Kanjidic : Type where
  file_version : Nat
  database_version : String
  creation_date : String
  entries : List Entry
deriving DecidableEq

/-- Embedding of Rust's `Iterator::collect::<Result<Vec<_>, _>>()`: map a
fallible function over a list, stopping at the first error. -/
def collectResults {α β : Type} (f : α → Except ParseError β) :
    List α → Except ParseError (List β)
  | [] => .ok []
  | a :: rest =>
    match f a with
    | .error e => .error e
    | .ok b =>
      match collectResults f rest with
      | .error e => .error e
      | .ok bs => .ok (b :: bs)

/-! Query facade (`impl Kanjidic`). -/

def Kanjidic.find_literal (k : Kanjidic) (literal : String) : Option Entry :=
  k.entries.find? (fun e => e.literal == literal)

def Kanjidic.filter (k : Kanjidic) (predicate : Entry → Bool) : List Entry :=
  k.entries.filter predicate

def Kanjidic.filter_meaning (k : Kanjidic) (predicate : Meaning → Bool) : List Entry :=
  k.entries.filter fun e =>
    (e.reading_meanings.flatMap fun rm => rm.meanings).any fun m => predicate m

/-! Leaf and group parsers, transliterated from src/src/kanjidic.rs.  Rust's
`?`-propagation is written as explicit matches on the intermediate results. -/

def parse_codepoint (n : XmlNode) : Except ParseError Codepoint :=
  match get_node_attr n "cp_type" with
  | .error e => .error e
  | .ok standard =>
    match get_node_text n with
    | .error e => .error e
    | .ok value => .ok ⟨standard, value⟩

def radicalValids : List String := ["classical", "nelson_c"]

/-- `parse_radical`, with the radical-index table (`crate::radicals`, not under
src/) passed as the collaborator `lookup` described in spec §6. -/
def parse_radical (lookup : Nat → Except ParseError String) (n : XmlNode) :
    Except ParseError Radical :=
  match get_node_attr n "rad_type" with
  | .error e => .error e
  | .ok ca =>
    match (if ca = "classical" then .ok RadicalType.Classical
           else if ca = "nelson_c" then .ok RadicalType.NelsonC
           else .error (ParseError.enumError ca radicalValids) :
           Except ParseError RadicalType) with
    | .error e => .error e
    | .ok classification =>
      match get_node_text n with
      | .error e => .error e
      | .ok t =>
        match parseU32 t with
        | .error e => .error e
        | .ok value_num =>
          match lookup value_num with
          | .error e => .error e
          | .ok value => .ok ⟨classification, value⟩

def gradeValids : List String := ["1", "2", "3", "4", "5", "6", "8", "9", "10"]

/-- The grade-classification block of `parse_misc` (lines 331-345): parse the
text as an unsigned integer and map it by range. -/
def parseGrade (t : String) : Except ParseError Grade :=
  match parseU32 t with
  | .error e => .error e
  | .ok i =>
    if 1 ≤ i ∧ i ≤ 6 then .ok (Grade.Kyouiku i)
    else if i = 8 then .ok Grade.Jouyou
    else if i = 9 then .ok Grade.Jinmeiyou
    else if i = 10 then .ok Grade.JouyouVariant
    else .error (.enumError (toString i) gradeValids)

/-- The local accumulator of `parse_misc`'s child loop. -/
structure MiscAcc : Type where
  grade : Option Grade
  stroke_counts : List Nat
  freq : Option Nat
  old_jlpt : Option Nat
deriving DecidableEq

/-- The child loop of `parse_misc` (lines 327-351). -/
def parseMiscChildren : List XmlNode → MiscAcc → Except ParseError MiscAcc
  | [], acc => .ok acc
  | c :: rest, acc =>
    if c.tag = "grade" then
      match get_node_text c with
      | .error e => .error e
      | .ok t =>
        match parseGrade t with
        | .error e => .error e
        | .ok g => parseMiscChildren rest { acc with grade := some g }
    else if c.tag = "stroke_count" then
      match get_node_text c with
      | .error e => .error e
      | .ok t =>
        match parseU32 t with
        | .error e => .error e
        | .ok v =>
          parseMiscChildren rest { acc with stroke_counts := acc.stroke_counts ++ [v] }
    else if c.tag = "freq" then
      match get_node_text c with
      | .error e => .error e
      | .ok t =>
        match parseU32 t with
        | .error e => .error e
        | .ok v => parseMiscChildren rest { acc with freq := some v }
    else if c.tag = "jlpt" then
      match get_node_text c with
      | .error e => .error e
      | .ok t =>
        match parseU32 t with
        | .error e => .error e
        | .ok v => parseMiscChildren rest { acc with old_jlpt := some v }
    else parseMiscChildren rest acc

/-- The `Misc` record assembled by `parse_misc`. -/
structure Misc : Type where
  stroke_count : Nat
  stroke_miscounts : List Nat
  grade : Option Grade
  freq : Option Nat
  old_jlpt : Option Nat
deriving DecidableEq

def parse_misc (n : XmlNode) : Except ParseError Misc :=
  match parseMiscChildren n.children ⟨none, [], none, none⟩ with
  | .error e => .error e
  | .ok acc =>
    match acc.stroke_counts with
    | [] => .error (.missingTag "stroke_count")
    | s :: rest => .ok ⟨s, rest, acc.grade, acc.freq, acc.old_jlpt⟩

/-- The per-child action of the stroke-count branch of `parse_misc`'s loop
(`text?.parse()?`), used to state what the accumulated list contains. -/
def strokeParse (c : XmlNode) : Except ParseError Nat :=
  match get_node_text c with
  | .error e => .error e
  | .ok t => parseU32 t

/-- The candidate list of `parse_dic_ref`'s enumeration error, verbatim from
lines 424-449 of the source ("nelson_c" appears twice; "nelson_n" is absent). -/
def dicRefValids : List String :=
  ["nelson_c", "nelson_c", "halpern_njecd", "halpern_kkd", "halpern_kkld",
   "halpern_kkld_2ed", "heisig", "heisig6", "gakken", "oneill_names",
   "oneill_kk", "henshall", "henshall3", "sh_kk", "sh_kk2", "sakade",
   "jf_cards", "tutt_cards", "crowley", "kanji_in_context", "busy_people",
   "kodansha_compact", "maniette", "moro"]

def parse_dic_ref (n : XmlNode) : Except ParseError DicRef :=
  match get_node_text n with
  | .error e => .error e
  | .ok num =>
    match get_node_attr n "dr_type" with
    | .error e => .error e
    | .ok typ =>
      if typ = "nelson_c" then .ok (DicRef.NelsonC num)
      else if typ = "nelson_n" then .ok (DicRef.NelsonN num)
      else if typ = "halpern_njecd" then .ok (DicRef.HalpernNJECD num)
      else if typ = "halpern_kkd" then .ok (DicRef.HalpernKKD num)
      else if typ = "halpern_kkld" then .ok (DicRef.HalpernKKLD num)
      else if typ = "halpern_kkld_2ed" then .ok (DicRef.HalpernKKLD2 num)
      else if typ = "heisig" then .ok (DicRef.Heisig num)
      else if typ = "heisig6" then .ok (DicRef.Heisig6 num)
      else if typ = "gakken" then .ok (DicRef.Gakken num)
      else if typ = "oneill_names" then .ok (DicRef.OneillNames num)
      else if typ = "oneill_kk" then .ok (DicRef.OneillKK num)
      else if typ = "henshall" then .ok (DicRef.Henshall num)
      else if typ = "henshall3" then .ok (DicRef.Henshall3 num)
      else if typ = "sh_kk" then .ok (DicRef.SHKK num)
      else if typ = "sh_kk2" then .ok (DicRef.SHKK2 num)
      else if typ = "sakade" then .ok (DicRef.Sakade num)
      else if typ = "jf_cards" then .ok (DicRef.JFCards num)
      else if typ = "tutt_cards" then .ok (DicRef.TuttCards num)
      else if typ = "crowley" then .ok (DicRef.Crowley num)
      else if typ = "kanji_in_context" then .ok (DicRef.InContext num)
      else if typ = "busy_people" then .ok (DicRef.BusyPeople num)
      else if typ = "kodansha_compact" then .ok (DicRef.KodanshaCompact num)
      else if typ = "maniette" then .ok (DicRef.Maniette num)
      else if typ = "moro" then
        match n.attr "m_vol" with
        | some v =>
          match parseU32 v with
          | .error e => .error e
          | .ok vol =>
            match n.attr "m_page" with
            | some p =>
              match parseU32 p with
              | .error e => .error e
              | .ok page => .ok (DicRef.Moro num (some vol) (some page))
            | none => .ok (DicRef.Moro num (some vol) none)
        | none =>
          match n.attr "m_page" with
          | some p =>
            match parseU32 p with
            | .error e => .error e
            | .ok page => .ok (DicRef.Moro num none (some page))
          | none => .ok (DicRef.Moro num none none)
      else .error (.enumError typ dicRefValids)

def parse_dic_ref_group (n : XmlNode) : Except ParseError (List DicRef) :=
  collectResults parse_dic_ref (n.children.filter (fun c => c.tag == "dic_ref"))

def get_jouyou_approved (n : XmlNode) : Bool :=
  match get_node_attr n "r_status" with
  | .ok _ => true
  | .error _ => false

def onValids : List String := ["kan", "go", "tou", "kan\x27you"]

def readingValids : List String :=
  ["pinyin", "korean_r", "korean_h", "vietnam", "ja_on", "ja_kun"]

def parse_reading (n : XmlNode) : Except ParseError Reading :=
  match get_node_text n with
  | .error e => .error e
  | .ok value =>
    match get_node_attr n "r_type" with
    | .error e => .error e
    | .ok ta =>
      if ta = "pinyin" then .ok ⟨value, .Pinyin⟩
      else if ta = "korean_r" then .ok ⟨value, .KoreanR⟩
      else if ta = "korean_h" then .ok ⟨value, .KoreanH⟩
      else if ta = "vietnam" then .ok ⟨value, .Vietnam⟩
      else if ta = "ja_on" then
        match get_node_attr n "on_type" with
        | .ok ty =>
          if ty = "kan" then .ok ⟨value, .Onyomi (get_jouyou_approved n) .Kan⟩
          else if ty = "go" then .ok ⟨value, .Onyomi (get_jouyou_approved n) .Go⟩
          else if ty = "tou" then .ok ⟨value, .Onyomi (get_jouyou_approved n) .Tou⟩
          else if ty = "kan\x27you" then
            .ok ⟨value, .Onyomi (get_jouyou_approved n) .Kanyou⟩
          else .error (.enumError ty onValids)
        | .error _ => .ok ⟨value, .Onyomi (get_jouyou_approved n) .None⟩
      else if ta = "ja_kun" then .ok ⟨value, .Kunyomi (get_jouyou_approved n)⟩
      else .error (.enumError ta readingValids)

/-- The child loop of `parse_reading_group` (lines 495-509). -/
def parseRGChildren : List XmlNode → List Reading → List Meaning →
    Except ParseError (List Reading × List Meaning)
  | [], readings, meanings => .ok (readings, meanings)
  | c :: rest, readings, meanings =>
    if c.tag = "reading" then
      match parse_reading c with
      | .error e => .error e
      | .ok r => parseRGChildren rest (readings ++ [r]) meanings
    else if c.tag = "meaning" then
      match get_node_text c with
      | .error e => .error e
      | .ok content =>
        parseRGChildren rest readings
          (meanings ++ [⟨content, (c.attr "m_lang").getD "en"⟩])
    else parseRGChildren rest readings meanings

def parse_reading_group (n : XmlNode) : Except ParseError ReadingMeaning :=
  match parseRGChildren n.children [] [] with
  | .error e => .error e
  | .ok (readings, meanings) => .ok ⟨readings, meanings⟩

/-- The child loop of `parse_reading_meanings` (lines 473-486). -/
def parseRMChildren : List XmlNode → List ReadingMeaning → List String →
    Except ParseError (List ReadingMeaning × List String)
  | [], rms, nas => .ok (rms, nas)
  | c :: rest, rms, nas =>
    if c.tag = "rmgroup" then
      match parse_reading_group c with
      | .error e => .error e
      | .ok g => parseRMChildren rest (rms ++ [g]) nas
    else if c.tag = "nanori" then
      match get_node_text c with
      | .error e => .error e
      | .ok t => parseRMChildren rest rms (nas ++ [t])
    else parseRMChildren rest rms nas

def parse_reading_meanings (n : XmlNode) :
    Except ParseError (List ReadingMeaning × List String) :=
  parseRMChildren n.children [] []

/-- The optional slots accumulated by `parse_entry`'s child loop
(lines 221-227). -/
structure EntrySlots : Type where
  literal_op : Option String := none
  codepoints_op : Option (List Codepoint) := none
  radicals_op : Option (List Radical) := none
  misc_op : Option Misc := none
  dic_refs_op : Option (List DicRef) := none
  readings_meanings_op : Option (List ReadingMeaning) := none
  nanori_op : Option (List String) := none
deriving DecidableEq

/-- The child loop of `parse_entry` (lines 229-260). -/
def parseEntryChildren (lookup : Nat → Except ParseError String) :
    List XmlNode → EntrySlots → Except ParseError EntrySlots
  | [], s => .ok s
  | c :: rest, s =>
    if c.tag = "literal" then
      match get_node_text c with
      | .error e => .error e
      | .ok t => parseEntryChildren lookup rest { s with literal_op := some t }
    else if c.tag = "codepoint" then
      match collectResults parse_codepoint
          (c.children.filter (fun cc => cc.tag == "cp_value")) with
      | .error e => .error e
      | .ok cps => parseEntryChildren lookup rest { s with codepoints_op := some cps }
    else if c.tag = "radical" then
      match collectResults (parse_radical lookup)
          (c.children.filter (fun cc => cc.tag == "rad_value")) with
      | .error e => .error e
      | .ok rads => parseEntryChildren lookup rest { s with radicals_op := some rads }
    else if c.tag = "misc" then
      match parse_misc c with
      | .error e => .error e
      | .ok m => parseEntryChildren lookup rest { s with misc_op := some m }
    else if c.tag = "dic_number" then
      match parse_dic_ref_group c with
      | .error e => .error e
      | .ok drs => parseEntryChildren lookup rest { s with dic_refs_op := some drs }
    else if c.tag = "reading_meaning" then
      match parse_reading_meanings c with
      | .error e => .error e
      | .ok p =>
        parseEntryChildren lookup rest
          { s with readings_meanings_op := some p.1, nanori_op := some p.2 }
    else parseEntryChildren lookup rest s

def parse_entry (lookup : Nat → Except ParseError String) (n : XmlNode) :
    Except ParseError Entry :=
  match parseEntryChildren lookup n.children {} with
  | .error e => .error e
  | .ok s =>
    match s.misc_op with
    | none => .error (.missingTag "misc")
    | some misc =>
      match s.literal_op with
      | none => .error (.missingTag "literal")
      | some literal =>
        match s.codepoints_op with
        | none => .error (.missingTag "codepoint")
        | some codepoints =>
          match s.radicals_op with
          | none => .error (.missingTag "radical")
          | some radicals =>
            .ok { literal := literal
                  codepoints := codepoints
                  reading_meanings := s.readings_meanings_op.getD []
                  nanori_readings := s.nanori_op.getD []
                  radicals := radicals
                  stroke_count := misc.stroke_count
                  stroke_miscounts := misc.stroke_miscounts
                  grade := misc.grade
                  freq := misc.freq
                  old_jlpt := misc.old_jlpt
                  dic_refs := s.dic_refs_op.getD [] }

def parse_header (header : XmlNode) : Except ParseError (Nat × String × String) :=
  match find_child_tag_err header "file_version" with
  | .error e => .error e
  | .ok fvn =>
    match get_node_text fvn with
    | .error e => .error e
    | .ok fvt =>
      match parseU32 fvt with
      | .error e => .error e
      | .ok fv =>
        match find_child_tag_err header "database_version" with
        | .error e => .error e
        | .ok dvn =>
          match get_node_text dvn with
          | .error e => .error e
          | .ok dv =>
            match find_child_tag_err header "date_of_creation" with
            | .error e => .error e
            | .ok cdn =>
              match get_node_text cdn with
              | .error e => .error e
              | .ok cd => .ok (fv, dv, cd)

/-- The character children of the located root, in document order
(`root.children().filter(is_element && tag == "character")`; non-element
children carry a non-matching tag in this model). -/
def characterNodes (root : XmlNode) : List XmlNode :=
  root.children.filter (fun c => c.tag == "character")

/-- `Kanjidic::from_file` after the out-of-scope byte acquisition and generic
tree build: the decode pipeline from the already-parsed document node
(whose children contain the root element) to the in-memory model. -/
def Kanjidic.from_doc (lookup : Nat → Except ParseError String) (doc : XmlNode) :
    Except ParseError Kanjidic :=
  match find_child_tag_err doc "kanjidic2" with
  | .error e => .error e
  | .ok root =>
    match find_child_tag_err root "header" with
    | .error e => .error e
    | .ok header =>
      match parse_header header with
      | .error e => .error e
      | .ok fdc =>
        match collectResults (parse_entry lookup) (characterNodes root) with
        | .error e => .error e
        | .ok entries =>
          .ok ⟨fdc.1, fdc.2.1, fdc.2.2, entries⟩

/-- The last child with a given tag, in document order (used to state which
occurrence of a repeated misc child survives the accumulator). -/
def lastWithTag (t : String) : List XmlNode → Option XmlNode
  | [] => none
  | c :: rest =>
    match lastWithTag t rest with
    | some x => some x
    | none => if c.tag = t then some c else none

/-! Test fixtures used by counterexamples and witnesses. -/

/-- A childless element with a tag and text content. -/
def elemT (tag text : String) : XmlNode := .mk tag [] text []

/-- A well-formed header element. -/
def headerEx : XmlNode :=
  .mk "header" [] ""
    [elemT "file_version" "4", elemT "database_version" "1.0",
     elemT "date_of_creation" "2024-01-01"]

/-- A stub radical-index lookup collaborator. -/
def lkEx : Nat → Except ParseError String := fun i => .ok (toString i)

/-! Claim C1: grade classification. -/

/-- On a successfully parsed integer, `parseGrade` reduces to the range
dispatch of lines 334-343. -/
theorem parseGrade_of_ok (t : String) (i : Nat) (hi : parseU32 t = .ok i) :
    parseGrade t =
      (if 1 ≤ i ∧ i ≤ 6 then .ok (Grade.Kyouiku i)
       else if i = 8 then .ok Grade.Jouyou
       else if i = 9 then .ok Grade.Jinmeiyou
       else if i = 10 then .ok Grade.JouyouVariant
       else .error (.enumError (toString i) gradeValids)) := by
  unfold parseGrade
  rw [hi]

/-- Claim C1: for grade text that parses as an unsigned integer `i`, the grade
block of `parse_misc` yields `Kyouiku i` for `1 ≤ i ≤ 6`, `Jouyou` for 8,
`Jinmeiyou` for 9, `JouyouVariant` for 10, and an enumeration error whose
accepted-value list is exactly `gradeValids` for every other integer; text
that does not parse as an unsigned integer propagates the numeric conversion
error. -/
theorem grade_classification (t : String) :
    (∀ i, parseU32 t = .ok i →
      ((1 ≤ i ∧ i ≤ 6) → parseGrade t = .ok (Grade.Kyouiku i)) ∧
      (i = 8 → parseGrade t = .ok Grade.Jouyou) ∧
      (i = 9 → parseGrade t = .ok Grade.Jinmeiyou) ∧
      (i = 10 → parseGrade t = .ok Grade.JouyouVariant) ∧
      (¬(1 ≤ i ∧ i ≤ 6) → i ≠ 8 → i ≠ 9 → i ≠ 10 →
        parseGrade t = .error (.enumError (toString i) gradeValids))) ∧
    (∀ e, parseU32 t = .error e → parseGrade t = .error e) := by
  constructor
  · intro i hi
    rw [parseGrade_of_ok t i hi]
    refine ⟨?_, ?_, ?_, ?_, ?_⟩
    · intro h16
      rw [if_pos h16]
    · intro h8
      subst h8
      rw [if_neg (by decide), if_pos rfl]
    · intro h9
      subst h9
      rw [if_neg (by decide), if_neg (by decide), if_pos rfl]
    · intro h10
      subst h10
      rw [if_neg (by decide), if_neg (by decide), if_neg (by decide), if_pos rfl]
    · intro h16 h8 h9 h10
      rw [if_neg h16, if_neg h8, if_neg h9, if_neg h10]
  · intro e he
    unfold parseGrade
    rw [he]

/-- Witness for C1 at concrete inputs: grade 3, grade 8, the rejected
grade 7, and non-numeric text. -/
theorem grade_classification_witness :
    parseGrade "3" = .ok (Grade.Kyouiku 3) ∧
    parseGrade "8" = .ok Grade.Jouyou ∧
    parseGrade "7" = .error (.enumError "7" gradeValids) ∧
    parseGrade "x" = .error (.numError "x") := by
  refine ⟨?_, ?_, ?_, ?_⟩
  · exact ((grade_classification "3").1 3 (by decide)).1 (by decide)
  · exact ((grade_classification "8").1 8 (by decide)).2.1 rfl
  · exact ((grade_classification "7").1 7 (by decide)).2.2.2.2
      (by decide) (by decide) (by decide) (by decide)
  · exact (grade_classification "x").2 (.numError "x") (by decide)

/-! Claim C2: the dictionary-reference enumeration error's candidate list. -/

/-- Claim C2 (code bug): an unknown dictionary-reference type fails with an
enumeration error carrying `dicRefValids`, but that list does not contain one
entry per documented type string: `"nelson_c"` appears twice and `"nelson_n"`
— which the match itself accepts — does not appear at all. -/
theorem dic_ref_valids_bug :
    parse_dic_ref (XmlNode.mk "dic_ref" [("dr_type", "bogus")] "1" []) =
      .error (.enumError "bogus" dicRefValids) ∧
    dicRefValids.count "nelson_c" = 2 ∧
    "nelson_n" ∉ dicRefValids ∧
    dicRefValids.length = 24 ∧
    parse_dic_ref (XmlNode.mk "dic_ref" [("dr_type", "nelson_n")] "1" []) =
      .ok (DicRef.NelsonN "1") := by
  refine ⟨by decide, by decide, by decide, by decide, by decide⟩

/-! Claim C10: the NeillKK variant is unreachable. -/

def DicRef.isNeillKK : DicRef → Bool
  | .NeillKK _ => true
  | _ => false

/-- Claim C10: `parse_dic_ref` never returns the `NeillKK` variant, and the
type string `"oneill_kk"` maps to `OneillKK`. -/
theorem neill_kk_unreachable :
    (∀ n r, parse_dic_ref n = .ok r → r.isNeillKK = false) ∧
    (∀ n v, get_node_text n = .ok v →
      get_node_attr n "dr_type" = .ok "oneill_kk" →
      parse_dic_ref n = .ok (DicRef.OneillKK v)) := by
  constructor
  · intro n r h
    cases ht : get_node_text n with
    | error e => simp only [parse_dic_ref, ht] at h; cases h
    | ok num =>
      cases ha : get_node_attr n "dr_type" with
      | error e => simp only [parse_dic_ref, ht, ha] at h; cases h
      | ok typ =>
        simp only [parse_dic_ref, ht, ha] at h
        by_cases h1 : typ = "nelson_c"
        · rw [if_pos h1] at h; cases h; rfl
        rw [if_neg h1] at h
        by_cases h2 : typ = "nelson_n"
        · rw [if_pos h2] at h; cases h; rfl
        rw [if_neg h2] at h
        by_cases h3 : typ = "halpern_njecd"
        · rw [if_pos h3] at h; cases h; rfl
        rw [if_neg h3] at h
        by_cases h4 : typ = "halpern_kkd"
        · rw [if_pos h4] at h; cases h; rfl
        rw [if_neg h4] at h
        by_cases h5 : typ = "halpern_kkld"
        · rw [if_pos h5] at h; cases h; rfl
        rw [if_neg h5] at h
        by_cases h6 : typ = "halpern_kkld_2ed"
        · rw [if_pos h6] at h; cases h; rfl
        rw [if_neg h6] at h
        by_cases h7 : typ = "heisig"
        · rw [if_pos h7] at h; cases h; rfl
        rw [if_neg h7] at h
        by_cases h8 : typ = "heisig6"
        · rw [if_pos h8] at h; cases h; rfl
        rw [if_neg h8] at h
        by_cases h9 : typ = "gakken"
        · rw [if_pos h9] at h; cases h; rfl
        rw [if_neg h9] at h
        by_cases h10 : typ = "oneill_names"
        · rw [if_pos h10] at h; cases h; rfl
        rw [if_neg h10] at h
        by_cases h11 : typ = "oneill_kk"
        · rw [if_pos h11] at h; cases h; rfl
        rw [if_neg h11] at h
        by_cases h12 : typ = "henshall"
        · rw [if_pos h12] at h; cases h; rfl
        rw [if_neg h12] at h
        by_cases h13 : typ = "henshall3"
        · rw [if_pos h13] at h; cases h; rfl
        rw [if_neg h13] at h
        by_cases h14 : typ = "sh_kk"
        · rw [if_pos h14] at h; cases h; rfl
        rw [if_neg h14] at h
        by_cases h15 : typ = "sh_kk2"
        · rw [if_pos h15] at h; cases h; rfl
        rw [if_neg h15] at h
        by_cases h16 : typ = "sakade"
        · rw [if_pos h16] at h; cases h; rfl
        rw [if_neg h16] at h
        by_cases h17 : typ = "jf_cards"
        · rw [if_pos h17] at h; cases h; rfl
        rw [if_neg h17] at h
        by_cases h18 : typ = "tutt_cards"
        · rw [if_pos h18] at h; cases h; rfl
        rw [if_neg h18] at h
        by_cases h19 : typ = "crowley"
        · rw [if_pos h19] at h; cases h; rfl
        rw [if_neg h19] at h
        by_cases h20 : typ = "kanji_in_context"
        · rw [if_pos h20] at h; cases h; rfl
        rw [if_neg h20] at h
        by_cases h21 : typ = "busy_people"
        · rw [if_pos h21] at h; cases h; rfl
        rw [if_neg h21] at h
        by_cases h22 : typ = "kodansha_compact"
        · rw [if_pos h22] at h; cases h; rfl
        rw [if_neg h22] at h
        by_cases h23 : typ = "maniette"
        · rw [if_pos h23] at h; cases h; rfl
        rw [if_neg h23] at h
        by_cases h24 : typ = "moro"
        · rw [if_pos h24] at h
          cases hmv : n.attr "m_vol" with
          | some v =>
            simp only [hmv] at h
            cases hpv : parseU32 v with
            | error e => simp only [hpv] at h; cases h
            | ok vol =>
              simp only [hpv] at h
              cases hmp : n.attr "m_page" with
              | some p =>
                simp only [hmp] at h
                cases hpp : parseU32 p with
                | error e => simp only [hpp] at h; cases h
                | ok page => simp only [hpp] at h; cases h; rfl
              | none => simp only [hmp] at h; cases h; rfl
          | none =>
            simp only [hmv] at h
            cases hmp : n.attr "m_page" with
            | some p =>
              simp only [hmp] at h
              cases hpp : parseU32 p with
              | error e => simp only [hpp] at h; cases h
              | ok page => simp only [hpp] at h; cases h; rfl
            | none => simp only [hmp] at h; cases h; rfl
        · rw [if_neg h24] at h; cases h
  · intro n v hv ha
    simp only [parse_dic_ref, hv, ha]
    rw [if_neg (by decide), if_neg (by decide), if_neg (by decide),
        if_neg (by decide), if_neg (by decide), if_neg (by decide),
        if_neg (by decide), if_neg (by decide), if_neg (by decide),
        if_neg (by decide), if_pos trivial]

/-- Witness for C10 at a concrete `oneill_kk` reference element. -/
theorem neill_kk_unreachable_witness :
    parse_dic_ref (XmlNode.mk "dic_ref" [("dr_type", "oneill_kk")] "42" []) =
      .ok (DicRef.OneillKK "42") ∧
    DicRef.isNeillKK (DicRef.OneillKK "42") = false := by
  constructor
  · exact neill_kk_unreachable.2
      (XmlNode.mk "dic_ref" [("dr_type", "oneill_kk")] "42" []) "42"
      (by decide) (by decide)
  · exact neill_kk_unreachable.1
      (XmlNode.mk "dic_ref" [("dr_type", "oneill_kk")] "42" [])
      (DicRef.OneillKK "42") (by decide)

/-! Claim C6: the standardization flag is presence-only. -/

/-- Claim C6: for a reading element whose type is `ja_on` or `ja_kun`, the
standardization flag of the parsed `Reading` is `get_jouyou_approved`, which
is true exactly when the element carries the `r_status` attribute — the
attribute's value is never inspected. -/
theorem reading_status_presence_only (n : XmlNode) (r : Reading)
    (h : parse_reading n = .ok r) :
    get_jouyou_approved n = (n.attr "r_status").isSome ∧
    (get_node_attr n "r_type" = .ok "ja_on" →
      ∃ o, r.typ = ReadingType.Onyomi (get_jouyou_approved n) o) ∧
    (get_node_attr n "r_type" = .ok "ja_kun" →
      r.typ = ReadingType.Kunyomi (get_jouyou_approved n)) := by
  refine ⟨?_, ?_, ?_⟩
  · unfold get_jouyou_approved get_node_attr
    cases n.attr "r_status" <;> rfl
  · intro ht
    cases hv : get_node_text n with
    | error e => simp only [parse_reading, hv] at h; cases h
    | ok v =>
      simp only [parse_reading, hv, ht] at h
      rw [if_neg (by decide), if_neg (by decide), if_neg (by decide),
          if_neg (by decide), if_pos trivial] at h
      cases hon : get_node_attr n "on_type" with
      | error e =>
        simp only [hon] at h
        cases h
        exact ⟨.None, rfl⟩
      | ok ty =>
        simp only [hon] at h
        by_cases k1 : ty = "kan"
        · rw [if_pos k1] at h; cases h; exact ⟨.Kan, rfl⟩
        rw [if_neg k1] at h
        by_cases k2 : ty = "go"
        · rw [if_pos k2] at h; cases h; exact ⟨.Go, rfl⟩
        rw [if_neg k2] at h
        by_cases k3 : ty = "tou"
        · rw [if_pos k3] at h; cases h; exact ⟨.Tou, rfl⟩
        rw [if_neg k3] at h
        by_cases k4 : ty = "kan\x27you"
        · rw [if_pos k4] at h; cases h; exact ⟨.Kanyou, rfl⟩
        rw [if_neg k4] at h
        cases h
  · intro ht
    cases hv : get_node_text n with
    | error e => simp only [parse_reading, hv] at h; cases h
    | ok v =>
      simp only [parse_reading, hv, ht] at h
      rw [if_neg (by decide), if_neg (by decide), if_neg (by decide),
          if_neg (by decide), if_neg (by decide), if_pos trivial] at h
      cases h
      rfl

/-- Witness for C6: two concrete `ja_kun` readings, one carrying an `r_status`
attribute with an arbitrary value and one without it. -/
theorem reading_status_presence_only_witness :
    (Reading.mk "ひ" (.Kunyomi true)).typ = ReadingType.Kunyomi
      (get_jouyou_approved (XmlNode.mk "reading"
        [("r_type", "ja_kun"), ("r_status", "whatever")] "ひ" [])) ∧
    (Reading.mk "ひ" (.Kunyomi false)).typ = ReadingType.Kunyomi
      (get_jouyou_approved (XmlNode.mk "reading" [("r_type", "ja_kun")] "ひ" [])) := by
  constructor
  · exact (reading_status_presence_only
      (XmlNode.mk "reading" [("r_type", "ja_kun"), ("r_status", "whatever")] "ひ" [])
      (Reading.mk "ひ" (.Kunyomi true)) (by decide)).2.2 (by decide)
  · exact (reading_status_presence_only
      (XmlNode.mk "reading" [("r_type", "ja_kun")] "ひ" [])
      (Reading.mk "ひ" (.Kunyomi false)) (by decide)).2.2 (by decide)

/-! Claim C7: the borrowing-origin attribute of ja_on readings. -/

/-- Claim C7: for a `ja_on` reading element, an absent `on_type` attribute
yields the unspecified origin without error; a present one must be one of
kan, go, tou, kan'you, and any other value fails with an enumeration error
listing exactly those four values. -/
theorem onyomi_origin_attr (n : XmlNode) (v : String)
    (hv : get_node_text n = .ok v)
    (ht : get_node_attr n "r_type" = .ok "ja_on") :
    (n.attr "on_type" = none →
      parse_reading n = .ok ⟨v, .Onyomi (get_jouyou_approved n) .None⟩) ∧
    (∀ s, n.attr "on_type" = some s →
      (s = "kan" →
        parse_reading n = .ok ⟨v, .Onyomi (get_jouyou_approved n) .Kan⟩) ∧
      (s = "go" →
        parse_reading n = .ok ⟨v, .Onyomi (get_jouyou_approved n) .Go⟩) ∧
      (s = "tou" →
        parse_reading n = .ok ⟨v, .Onyomi (get_jouyou_approved n) .Tou⟩) ∧
      (s = "kan\x27you" →
        parse_reading n = .ok ⟨v, .Onyomi (get_jouyou_approved n) .Kanyou⟩) ∧
      (s ≠ "kan" → s ≠ "go" → s ≠ "tou" → s ≠ "kan\x27you" →
        parse_reading n = .error (.enumError s onValids))) := by
  have hbase : parse_reading n =
      (match get_node_attr n "on_type" with
       | .ok ty =>
         if ty = "kan" then .ok ⟨v, .Onyomi (get_jouyou_approved n) .Kan⟩
         else if ty = "go" then .ok ⟨v, .Onyomi (get_jouyou_approved n) .Go⟩
         else if ty = "tou" then .ok ⟨v, .Onyomi (get_jouyou_approved n) .Tou⟩
         else if ty = "kan\x27you" then
           .ok ⟨v, .Onyomi (get_jouyou_approved n) .Kanyou⟩
         else .error (.enumError ty onValids)
       | .error _ => .ok ⟨v, .Onyomi (get_jouyou_approved n) .None⟩) := by
    simp only [parse_reading, hv, ht]
    rw [if_neg (by decide), if_neg (by decide), if_neg (by decide),
        if_neg (by decide), if_pos trivial]
  constructor
  · intro hnone
    have hattr : get_node_attr n "on_type" = .error (.missingAttr "on_type") := by
      unfold get_node_attr
      rw [hnone]
    rw [hbase, hattr]
  · intro s hs
    have hattr : get_node_attr n "on_type" = .ok s := by
      unfold get_node_attr
      rw [hs]
    refine ⟨?_, ?_, ?_, ?_, ?_⟩
    · intro k; subst k
      rw [hbase, hattr]
      rfl
    · intro k; subst k
      rw [hbase, hattr]
      rfl
    · intro k; subst k
      rw [hbase, hattr]
      rfl
    · intro k; subst k
      rw [hbase, hattr]
      rfl
    · intro k1 k2 k3 k4
      rw [hbase]
      simp only [hattr]
      rw [if_neg k1, if_neg k2, if_neg k3, if_neg k4]

/-- Witness for C7: concrete ja_on elements without `on_type`, with
`on_type="go"`, and with an invalid `on_type`. -/
theorem onyomi_origin_attr_witness :
    parse_reading (XmlNode.mk "reading" [("r_type", "ja_on")] "ニチ" []) =
      .ok ⟨"ニチ", .Onyomi
        (get_jouyou_approved (XmlNode.mk "reading" [("r_type", "ja_on")] "ニチ" []))
        .None⟩ ∧
    parse_reading (XmlNode.mk "reading" [("r_type", "ja_on"), ("on_type", "go")]
        "ニチ" []) =
      .ok ⟨"ニチ", .Onyomi
        (get_jouyou_approved (XmlNode.mk "reading"
          [("r_type", "ja_on"), ("on_type", "go")] "ニチ" []))
        .Go⟩ ∧
    parse_reading (XmlNode.mk "reading" [("r_type", "ja_on"), ("on_type", "bad")]
        "ニチ" []) =
      .error (.enumError "bad" onValids) := by
  refine ⟨?_, ?_, ?_⟩
  · exact (onyomi_origin_attr (XmlNode.mk "reading" [("r_type", "ja_on")] "ニチ" [])
      "ニチ" (by decide) (by decide)).1 (by decide)
  · exact ((onyomi_origin_attr
      (XmlNode.mk "reading" [("r_type", "ja_on"), ("on_type", "go")] "ニチ" [])
      "ニチ" (by decide) (by decide)).2 "go" (by decide)).2.1 rfl
  · exact ((onyomi_origin_attr
      (XmlNode.mk "reading" [("r_type", "ja_on"), ("on_type", "bad")] "ニチ" [])
      "ニチ" (by decide) (by decide)).2 "bad" (by decide)).2.2.2.2
      (by decide) (by decide) (by decide) (by decide)

/-! Claim C9: find_literal returns the first exact match. -/

/-- A successful `List.find?` over entry literals returns the first entry in
list order whose literal matches. -/
theorem find_literal_aux (lit : String) : ∀ (l : List Entry) (e : Entry),
    l.find? (fun x => x.literal == lit) = some e →
    e.literal = lit ∧ ∃ pre post, l = pre ++ e :: post ∧
      ∀ x ∈ pre, x.literal ≠ lit := by
  intro l
  induction l with
  | nil => intro e h; cases h
  | cons a l ih =>
    intro e h
    by_cases ha : a.literal = lit
    · rw [List.find?_cons_of_pos _ (by simp [ha])] at h
      cases h
      exact ⟨ha, [], l, rfl, by simp⟩
    · rw [List.find?_cons_of_neg _ (by simp [ha])] at h
      obtain ⟨he, pre, post, hl, hpre⟩ := ih e h
      refine ⟨he, a :: pre, post, by rw [hl]; rfl, ?_⟩
      intro x hx
      rcases List.mem_cons.mp hx with h1 | h2
      · subst h1; exact ha
      · exact hpre x h2

/-- Claim C9: `find_literal` returns none exactly when no entry's literal is
an exact match, and otherwise returns the first matching entry in document
order. -/
theorem find_literal_first_match (k : Kanjidic) (lit : String) :
    (k.find_literal lit = none ↔ ∀ e ∈ k.entries, e.literal ≠ lit) ∧
    (∀ e, k.find_literal lit = some e →
      e.literal = lit ∧ ∃ pre post, k.entries = pre ++ e :: post ∧
        ∀ x ∈ pre, x.literal ≠ lit) := by
  constructor
  · unfold Kanjidic.find_literal
    rw [List.find?_eq_none]
    simp
  · intro e h
    exact find_literal_aux lit k.entries e h

/-- Witness for C9: a two-entry document where the second entry matches. -/
theorem find_literal_first_match_witness :
    (Entry.mk "月" [] [] [] [] 4 [] none none none []).literal = "月" ∧
    Kanjidic.find_literal
      ⟨4, "1.0", "2024-01-01",
        [⟨"日", [], [], [], [], 4, [], none, none, none, []⟩,
         ⟨"月", [], [], [], [], 4, [], none, none, none, []⟩]⟩ "水" = none := by
  constructor
  · exact ((find_literal_first_match
      ⟨4, "1.0", "2024-01-01",
        [⟨"日", [], [], [], [], 4, [], none, none, none, []⟩,
         ⟨"月", [], [], [], [], 4, [], none, none, none, []⟩]⟩ "月").2
      (Entry.mk "月" [] [] [] [] 4 [] none none none []) (by decide)).1
  · exact (find_literal_first_match
      ⟨4, "1.0", "2024-01-01",
        [⟨"日", [], [], [], [], 4, [], none, none, none, []⟩,
         ⟨"月", [], [], [], [], 4, [], none, none, none, []⟩]⟩ "水").1.mpr
      (by decide)

/-! Helper facts about the primitive converters' error shapes and about
`lastWithTag`, used for the misc-group claims. -/

/-- A failing text extraction reports exactly a missing-text error for the
node's own tag. -/
theorem get_node_text_error (n : XmlNode) (e : ParseError)
    (h : get_node_text n = .error e) : e = .missingText n.tag := by
  unfold get_node_text at h
  split at h
  · cases h; rfl
  · cases h

/-- A failing unsigned-integer conversion reports exactly a numeric
conversion error for the offending text. -/
theorem parseU32_error (s : String) (e : ParseError)
    (h : parseU32 s = .error e) : e = .numError s := by
  unfold parseU32 at h
  split at h
  · cases h; rfl
  · split at h
    · split at h
      · cases h
      · cases h; rfl
    · cases h; rfl

/-- A failing grade classification never reports a missing-element error. -/
theorem parseGrade_error_not_missing (t : String) (e : ParseError)
    (h : parseGrade t = .error e) : ∀ tg, e ≠ ParseError.missingTag tg := by
  intro tg
  unfold parseGrade at h
  cases hp : parseU32 t with
  | error e0 =>
    simp only [hp] at h
    cases h
    rw [parseU32_error t _ hp]
    intro hx
    cases hx
  | ok i =>
    simp only [hp] at h
    split at h
    · cases h
    split at h
    · cases h
    split at h
    · cases h
    split at h
    · cases h
    cases h
    intro hx
    cases hx

theorem lastWithTag_cons_none (t : String) (c : XmlNode) (rest : List XmlNode)
    (h : lastWithTag t (c :: rest) = none) :
    lastWithTag t rest = none ∧ c.tag ≠ t := by
  simp only [lastWithTag] at h
  cases hl : lastWithTag t rest with
  | some x => simp only [hl] at h; cases h
  | none =>
    simp only [hl] at h
    refine ⟨rfl, ?_⟩
    intro hc
    rw [if_pos hc] at h
    cases h

theorem lastWithTag_cons_some (t : String) (c x : XmlNode) (rest : List XmlNode)
    (h : lastWithTag t (c :: rest) = some x) :
    lastWithTag t rest = some x ∨
      (lastWithTag t rest = none ∧ c.tag = t ∧ x = c) := by
  simp only [lastWithTag] at h
  cases hl : lastWithTag t rest with
  | some y =>
    simp only [hl] at h
    cases h
    exact Or.inl rfl
  | none =>
    simp only [hl] at h
    by_cases hc : c.tag = t
    · rw [if_pos hc] at h
      cases h
      exact Or.inr ⟨rfl, hc, rfl⟩
    · rw [if_neg hc] at h
      cases h

/-- The misc child loop keeps, for each of the grade/freq/jlpt slots, the
value parsed from the LAST child with that tag (each new occurrence
overwrites the slot), and leaves the slot at its incoming value when no such
child exists. -/
theorem parseMiscChildren_last (cs : List XmlNode) : ∀ acc res,
    parseMiscChildren cs acc = .ok res →
    (lastWithTag "grade" cs = none → res.grade = acc.grade) ∧
    (∀ c t g, lastWithTag "grade" cs = some c → get_node_text c = .ok t →
      parseGrade t = .ok g → res.grade = some g) ∧
    (lastWithTag "freq" cs = none → res.freq = acc.freq) ∧
    (∀ c t v, lastWithTag "freq" cs = some c → get_node_text c = .ok t →
      parseU32 t = .ok v → res.freq = some v) ∧
    (lastWithTag "jlpt" cs = none → res.old_jlpt = acc.old_jlpt) ∧
    (∀ c t v, lastWithTag "jlpt" cs = some c → get_node_text c = .ok t →
      parseU32 t = .ok v → res.old_jlpt = some v) := by
  induction cs with
  | nil =>
    intro acc res h
    simp only [parseMiscChildren] at h
    cases h
    refine ⟨fun _ => rfl, ?_, fun _ => rfl, ?_, fun _ => rfl, ?_⟩ <;>
      (intro c t g hs; cases hs)
  | cons c rest ih =>
    intro acc res h
    simp only [parseMiscChildren] at h
    by_cases hg : c.tag = "grade"
    · rw [if_pos hg] at h
      cases ht : get_node_text c with
      | error e => simp only [ht] at h; cases h
      | ok t0 =>
        simp only [ht] at h
        cases hpg : parseGrade t0 with
        | error e => simp only [hpg] at h; cases h
        | ok g0 =>
          simp only [hpg] at h
          obtain ⟨R1, R2, R3, R4, R5, R6⟩ := ih { acc with grade := some g0 } res h
          refine ⟨?_, ?_, ?_, ?_, ?_, ?_⟩
          · intro hn
            exact absurd hg (lastWithTag_cons_none _ _ _ hn).2
          · intro c' t g hs hct hpg'
            rcases lastWithTag_cons_some _ _ _ _ hs with hrest | ⟨hrest, _, hxc⟩
            · exact R2 c' t g hrest hct hpg'
            · subst hxc
              rw [ht] at hct
              cases hct
              rw [hpg] at hpg'
              cases hpg'
              exact R1 hrest
          · intro hn
            exact R3 (lastWithTag_cons_none _ _ _ hn).1
          · intro c' t v hs hct hpv
            rcases lastWithTag_cons_some _ _ _ _ hs with hrest | ⟨hrest, hctag, hxc⟩
            · exact R4 c' t v hrest hct hpv
            · rw [hg] at hctag
              exact absurd hctag (by decide)
          · intro hn
            exact R5 (lastWithTag_cons_none _ _ _ hn).1
          · intro c' t v hs hct hpv
            rcases lastWithTag_cons_some _ _ _ _ hs with hrest | ⟨hrest, hctag, hxc⟩
            · exact R6 c' t v hrest hct hpv
            · rw [hg] at hctag
              exact absurd hctag (by decide)
    rw [if_neg hg] at h
    by_cases hsc : c.tag = "stroke_count"
    · rw [if_pos hsc] at h
      cases ht : get_node_text c with
      | error e => simp only [ht] at h; cases h
      | ok t0 =>
        simp only [ht] at h
        cases hpv : parseU32 t0 with
        | error e => simp only [hpv] at h; cases h
        | ok v0 =>
          simp only [hpv] at h
          obtain ⟨R1, R2, R3, R4, R5, R6⟩ :=
            ih { acc with stroke_counts := acc.stroke_counts ++ [v0] } res h
          refine ⟨?_, ?_, ?_, ?_, ?_, ?_⟩
          · intro hn
            exact R1 (lastWithTag_cons_none _ _ _ hn).1
          · intro c' t g hs hct hpg'
            rcases lastWithTag_cons_some _ _ _ _ hs with hrest | ⟨hrest, hctag, hxc⟩
            · exact R2 c' t g hrest hct hpg'
            · rw [hsc] at hctag
              exact absurd hctag (by decide)
          · intro hn
            exact R3 (lastWithTag_cons_none _ _ _ hn).1
          · intro c' t v hs hct hpv'
            rcases lastWithTag_cons_some _ _ _ _ hs with hrest | ⟨hrest, hctag, hxc⟩
            · exact R4 c' t v hrest hct hpv'
            · rw [hsc] at hctag
              exact absurd hctag (by decide)
          · intro hn
            exact R5 (lastWithTag_cons_none _ _ _ hn).1
          · intro c' t v hs hct hpv'
            rcases lastWithTag_cons_some _ _ _ _ hs with hrest | ⟨hrest, hctag, hxc⟩
            · exact R6 c' t v hrest hct hpv'
            · rw [hsc] at hctag
              exact absurd hctag (by decide)
    rw [if_neg hsc] at h
    by_cases hf : c.tag = "freq"
    · rw [if_pos hf] at h
      cases ht : get_node_text c with
      | error e => simp only [ht] at h; cases h
      | ok t0 =>
        simp only [ht] at h
        cases hpv : parseU32 t0 with
        | error e => simp only [hpv] at h; cases h
        | ok v0 =>
          simp only [hpv] at h
          obtain ⟨R1, R2, R3, R4, R5, R6⟩ := ih { acc with freq := some v0 } res h
          refine ⟨?_, ?_, ?_, ?_, ?_, ?_⟩
          · intro hn
            exact R1 (lastWithTag_cons_none _ _ _ hn).1
          · intro c' t g hs hct hpg'
            rcases lastWithTag_cons_some _ _ _ _ hs with hrest | ⟨hrest, hctag, hxc⟩
            · exact R2 c' t g hrest hct hpg'
            · rw [hf] at hctag
              exact absurd hctag (by decide)
          · intro hn
            exact absurd hf (lastWithTag_cons_none _ _ _ hn).2
          · intro c' t v hs hct hpv'
            rcases lastWithTag_cons_some _ _ _ _ hs with hrest | ⟨hrest, _, hxc⟩
            · exact R4 c' t v hrest hct hpv'
            · subst hxc
              rw [ht] at hct
              cases hct
              rw [hpv] at hpv'
              cases hpv'
              exact R3 hrest
          · intro hn
            exact R5 (lastWithTag_cons_none _ _ _ hn).1
          · intro c' t v hs hct hpv'
            rcases lastWithTag_cons_some _ _ _ _ hs with hrest | ⟨hrest, hctag, hxc⟩
            · exact R6 c' t v hrest hct hpv'
            · rw [hf] at hctag
              exact absurd hctag (by decide)
    rw [if_neg hf] at h
    by_cases hj : c.tag = "jlpt"
    · rw [if_pos hj] at h
      cases ht : get_node_text c with
      | error e => simp only [ht] at h; cases h
      | ok t0 =>
        simp only [ht] at h
        cases hpv : parseU32 t0 with
        | error e => simp only [hpv] at h; cases h
        | ok v0 =>
          simp only [hpv] at h
          obtain ⟨R1, R2, R3, R4, R5, R6⟩ := ih { acc with old_jlpt := some v0 } res h
          refine ⟨?_, ?_, ?_, ?_, ?_, ?_⟩
          · intro hn
            exact R1 (lastWithTag_cons_none _ _ _ hn).1
          · intro c' t g hs hct hpg'
            rcases lastWithTag_cons_some _ _ _ _ hs with hrest | ⟨hrest, hctag, hxc⟩
            · exact R2 c' t g hrest hct hpg'
            · rw [hj] at hctag
              exact absurd hctag (by decide)
          · intro hn
            exact R3 (lastWithTag_cons_none _ _ _ hn).1
          · intro c' t v hs hct hpv'
            rcases lastWithTag_cons_some _ _ _ _ hs with hrest | ⟨hrest, hctag, hxc⟩
            · exact R4 c' t v hrest hct hpv'
            · rw [hj] at hctag
              exact absurd hctag (by decide)
          · intro hn
            exact absurd hj (lastWithTag_cons_none _ _ _ hn).2
          · intro c' t v hs hct hpv'
            rcases lastWithTag_cons_some _ _ _ _ hs with hrest | ⟨hrest, _, hxc⟩
            · exact R6 c' t v hrest hct hpv'
            · subst hxc
              rw [ht] at hct
              cases hct
              rw [hpv] at hpv'
              cases hpv'
              exact R5 hrest
    rw [if_neg hj] at h
    obtain ⟨R1, R2, R3, R4, R5, R6⟩ := ih acc res h
    refine ⟨?_, ?_, ?_, ?_, ?_, ?_⟩
    · intro hn
      exact R1 (lastWithTag_cons_none _ _ _ hn).1
    · intro c' t g hs hct hpg'
      rcases lastWithTag_cons_some _ _ _ _ hs with hrest | ⟨hrest, hctag, hxc⟩
      · exact R2 c' t g hrest hct hpg'
      · exact absurd hctag hg
    · intro hn
      exact R3 (lastWithTag_cons_none _ _ _ hn).1
    · intro c' t v hs hct hpv'
      rcases lastWithTag_cons_some _ _ _ _ hs with hrest | ⟨hrest, hctag, hxc⟩
      · exact R4 c' t v hrest hct hpv'
      · exact absurd hctag hf
    · intro hn
      exact R5 (lastWithTag_cons_none _ _ _ hn).1
    · intro c' t v hs hct hpv'
      rcases lastWithTag_cons_some _ _ _ _ hs with hrest | ⟨hrest, hctag, hxc⟩
      · exact R6 c' t v hrest hct hpv'
      · exact absurd hctag hj

/-- The misc child loop appends, in document order, the parsed value of every
`stroke_count` child to the accumulated stroke list, and those parses all
succeed. -/
theorem parseMiscChildren_strokes (cs : List XmlNode) : ∀ acc res,
    parseMiscChildren cs acc = .ok res →
    ∃ vs, collectResults strokeParse
        (cs.filter (fun c => c.tag == "stroke_count")) = .ok vs ∧
      res.stroke_counts = acc.stroke_counts ++ vs := by
  induction cs with
  | nil =>
    intro acc res h
    simp only [parseMiscChildren] at h
    cases h
    exact ⟨[], rfl, by simp⟩
  | cons c rest ih =>
    intro acc res h
    simp only [parseMiscChildren] at h
    by_cases hg : c.tag = "grade"
    · rw [if_pos hg] at h
      cases ht : get_node_text c with
      | error e => simp only [ht] at h; cases h
      | ok t0 =>
        simp only [ht] at h
        cases hpg : parseGrade t0 with
        | error e => simp only [hpg] at h; cases h
        | ok g0 =>
          simp only [hpg] at h
          obtain ⟨vs, hcol, hcnt⟩ := ih _ res h
          refine ⟨vs, ?_, hcnt⟩
          rw [List.filter_cons_of_neg (by rw [hg]; decide)]
          exact hcol
    rw [if_neg hg] at h
    by_cases hsc : c.tag = "stroke_count"
    · rw [if_pos hsc] at h
      cases ht : get_node_text c with
      | error e => simp only [ht] at h; cases h
      | ok t0 =>
        simp only [ht] at h
        cases hpv : parseU32 t0 with
        | error e => simp only [hpv] at h; cases h
        | ok v0 =>
          simp only [hpv] at h
          obtain ⟨vs, hcol, hcnt⟩ := ih _ res h
          have hsp : strokeParse c = .ok v0 := by
            unfold strokeParse
            rw [ht]
            exact hpv
          refine ⟨v0 :: vs, ?_, ?_⟩
          · rw [List.filter_cons_of_pos (by rw [hsc]; decide)]
            simp only [collectResults, hsp, hcol]
          · rw [hcnt]
            simp
    rw [if_neg hsc] at h
    by_cases hf : c.tag = "freq"
    · rw [if_pos hf] at h
      cases ht : get_node_text c with
      | error e => simp only [ht] at h; cases h
      | ok t0 =>
        simp only [ht] at h
        cases hpv : parseU32 t0 with
        | error e => simp only [hpv] at h; cases h
        | ok v0 =>
          simp only [hpv] at h
          obtain ⟨vs, hcol, hcnt⟩ := ih _ res h
          refine ⟨vs, ?_, hcnt⟩
          rw [List.filter_cons_of_neg (by rw [hf]; decide)]
          exact hcol
    rw [if_neg hf] at h
    by_cases hj : c.tag = "jlpt"
    · rw [if_pos hj] at h
      cases ht : get_node_text c with
      | error e => simp only [ht] at h; cases h
      | ok t0 =>
        simp only [ht] at h
        cases hpv : parseU32 t0 with
        | error e => simp only [hpv] at h; cases h
        | ok v0 =>
          simp only [hpv] at h
          obtain ⟨vs, hcol, hcnt⟩ := ih _ res h
          refine ⟨vs, ?_, hcnt⟩
          rw [List.filter_cons_of_neg (by rw [hj]; decide)]
          exact hcol
    rw [if_neg hj] at h
    obtain ⟨vs, hcol, hcnt⟩ := ih acc res h
    refine ⟨vs, ?_, hcnt⟩
    rw [List.filter_cons_of_neg (by simpa using hsc)]
    exact hcol

/-- The misc child loop never fails with a missing-required-element error:
its failures are missing-text, numeric conversion, or enumeration errors. -/
theorem parseMiscChildren_no_missing (cs : List XmlNode) : ∀ acc e,
    parseMiscChildren cs acc = .error e → ∀ t, e ≠ ParseError.missingTag t := by
  induction cs with
  | nil =>
    intro acc e h t
    simp only [parseMiscChildren] at h
    cases h
  | cons c rest ih =>
    intro acc e h t
    simp only [parseMiscChildren] at h
    by_cases hg : c.tag = "grade"
    · rw [if_pos hg] at h
      cases ht : get_node_text c with
      | error e0 =>
        simp only [ht] at h
        cases h
        rw [get_node_text_error c _ ht]
        intro hx
        cases hx
      | ok t0 =>
        simp only [ht] at h
        cases hpg : parseGrade t0 with
        | error e0 =>
          simp only [hpg] at h
          cases h
          exact parseGrade_error_not_missing t0 _ hpg t
        | ok g0 =>
          simp only [hpg] at h
          exact ih _ e h t
    rw [if_neg hg] at h
    by_cases hsc : c.tag = "stroke_count"
    · rw [if_pos hsc] at h
      cases ht : get_node_text c with
      | error e0 =>
        simp only [ht] at h
        cases h
        rw [get_node_text_error c _ ht]
        intro hx
        cases hx
      | ok t0 =>
        simp only [ht] at h
        cases hpv : parseU32 t0 with
        | error e0 =>
          simp only [hpv] at h
          cases h
          rw [parseU32_error t0 _ hpv]
          intro hx
          cases hx
        | ok v0 =>
          simp only [hpv] at h
          exact ih _ e h t
    rw [if_neg hsc] at h
    by_cases hf : c.tag = "freq"
    · rw [if_pos hf] at h
      cases ht : get_node_text c with
      | error e0 =>
        simp only [ht] at h
        cases h
        rw [get_node_text_error c _ ht]
        intro hx
        cases hx
      | ok t0 =>
        simp only [ht] at h
        cases hpv : parseU32 t0 with
        | error e0 =>
          simp only [hpv] at h
          cases h
          rw [parseU32_error t0 _ hpv]
          intro hx
          cases hx
        | ok v0 =>
          simp only [hpv] at h
          exact ih _ e h t
    rw [if_neg hf] at h
    by_cases hj : c.tag = "jlpt"
    · rw [if_pos hj] at h
      cases ht : get_node_text c with
      | error e0 =>
        simp only [ht] at h
        cases h
        rw [get_node_text_error c _ ht]
        intro hx
        cases hx
      | ok t0 =>
        simp only [ht] at h
        cases hpv : parseU32 t0 with
        | error e0 =>
          simp only [hpv] at h
          cases h
          rw [parseU32_error t0 _ hpv]
          intro hx
          cases hx
        | ok v0 =>
          simp only [hpv] at h
          exact ih _ e h t
    rw [if_neg hj] at h
    exact ih acc e h t

/-- Decomposition of a successful `parse_misc` run into its loop result. -/
theorem parse_misc_fields (n : XmlNode) (m : Misc) (h : parse_misc n = .ok m) :
    ∃ acc, parseMiscChildren n.children ⟨none, [], none, none⟩ = .ok acc ∧
      acc.stroke_counts = m.stroke_count :: m.stroke_miscounts ∧
      m.grade = acc.grade ∧ m.freq = acc.freq ∧ m.old_jlpt = acc.old_jlpt := by
  unfold parse_misc at h
  cases hloop : parseMiscChildren n.children ⟨none, [], none, none⟩ with
  | error e => simp only [hloop] at h; cases h
  | ok acc =>
    simp only [hloop] at h
    cases hsc : acc.stroke_counts with
    | nil => simp only [hsc] at h; cases h
    | cons s rest =>
      simp only [hsc] at h
      cases h
      exact ⟨acc, rfl, hsc, rfl, rfl, rfl⟩

/-! Claim C3: which occurrence of repeated grade/freq/jlpt children wins. -/

/-- A misc element with two grade children ("1" then "2") and a character
entry containing it. -/
def miscTwoGrades : XmlNode :=
  .mk "misc" [] ""
    [elemT "grade" "1", elemT "grade" "2", elemT "stroke_count" "4"]

def charTwoGrades : XmlNode :=
  .mk "character" [] ""
    [elemT "literal" "日",
     .mk "codepoint" [] "" [],
     .mk "radical" [] "" [],
     miscTwoGrades]

/-- Counterexample to C3: with two grade children "1" and "2" that both parse,
the resulting Entry carries the value of the SECOND (last) occurrence,
`Kyouiku 2`, not the first occurrence's `Kyouiku 1`. -/
theorem first_grade_occurrence_not_kept :
    parse_entry lkEx charTwoGrades =
      .ok ⟨"日", [], [], [], [], 4, [], some (Grade.Kyouiku 2), none, none, []⟩ ∧
    ¬ parse_entry lkEx charTwoGrades =
      .ok ⟨"日", [], [], [], [], 4, [], some (Grade.Kyouiku 1), none, none, []⟩ := by
  exact ⟨by decide, by decide⟩

/-- Claim C3 (amended): when a misc element's grade (respectively freq, jlpt)
children all parse successfully, the resulting record carries the value of
the LAST such occurrence in document order — each occurrence overwrites the
slot — and the slot is empty when no such child exists. -/
theorem misc_last_occurrence_wins (n : XmlNode) (m : Misc)
    (h : parse_misc n = .ok m) :
    (lastWithTag "grade" n.children = none → m.grade = none) ∧
    (∀ c t g, lastWithTag "grade" n.children = some c → get_node_text c = .ok t →
      parseGrade t = .ok g → m.grade = some g) ∧
    (lastWithTag "freq" n.children = none → m.freq = none) ∧
    (∀ c t v, lastWithTag "freq" n.children = some c → get_node_text c = .ok t →
      parseU32 t = .ok v → m.freq = some v) ∧
    (lastWithTag "jlpt" n.children = none → m.old_jlpt = none) ∧
    (∀ c t v, lastWithTag "jlpt" n.children = some c → get_node_text c = .ok t →
      parseU32 t = .ok v → m.old_jlpt = some v) := by
  obtain ⟨acc, hloop, hsc, hgr, hfr, hjl⟩ := parse_misc_fields n m h
  obtain ⟨R1, R2, R3, R4, R5, R6⟩ := parseMiscChildren_last n.children _ acc hloop
  refine ⟨?_, ?_, ?_, ?_, ?_, ?_⟩
  · intro hn
    rw [hgr]
    exact R1 hn
  · intro c t g hs ht hp
    rw [hgr]
    exact R2 c t g hs ht hp
  · intro hn
    rw [hfr]
    exact R3 hn
  · intro c t v hs ht hp
    rw [hfr]
    exact R4 c t v hs ht hp
  · intro hn
    rw [hjl]
    exact R5 hn
  · intro c t v hs ht hp
    rw [hjl]
    exact R6 c t v hs ht hp

/-- Witness for the amended C3 at the two-grade misc element: the surviving
grade is the last occurrence's `Kyouiku 2`. -/
theorem misc_last_occurrence_wins_witness :
    (Misc.mk 4 [] (some (Grade.Kyouiku 2)) none none).grade =
      some (Grade.Kyouiku 2) :=
  (misc_last_occurrence_wins miscTwoGrades
    (Misc.mk 4 [] (some (Grade.Kyouiku 2)) none none) (by decide)).2.1
    (elemT "grade" "2") "2" (Grade.Kyouiku 2) rfl (by decide) (by decide)

/-! Claim C5: stroke-count accumulation and the missing-stroke-count error. -/

/-- Claim C5: on success the first stroke_count child (in document order)
becomes `stroke_count` and the remaining ones become `stroke_miscounts` in
order; when no stroke_count child exists (and the child loop itself
succeeds), `parse_misc` fails with a missing-required-element error naming
"stroke_count"; and any missing-element error `parse_misc` reports names
"stroke_count" — no other element's absence is ever reported. -/
theorem misc_stroke_counts (n : XmlNode) :
    (∀ m, parse_misc n = .ok m →
      collectResults strokeParse
          (n.children.filter (fun c => c.tag == "stroke_count")) =
        .ok (m.stroke_count :: m.stroke_miscounts)) ∧
    (∀ acc, parseMiscChildren n.children ⟨none, [], none, none⟩ = .ok acc →
      n.children.filter (fun c => c.tag == "stroke_count") = [] →
      parse_misc n = .error (.missingTag "stroke_count")) ∧
    (∀ t, parse_misc n = .error (.missingTag t) → t = "stroke_count") := by
  refine ⟨?_, ?_, ?_⟩
  · intro m h
    obtain ⟨acc, hloop, hsc, _, _, _⟩ := parse_misc_fields n m h
    obtain ⟨vs, hcol, hcnt⟩ := parseMiscChildren_strokes n.children _ acc hloop
    rw [hcol, ← hsc, hcnt]
    simp
  · intro acc hloop hnil
    obtain ⟨vs, hcol, hcnt⟩ := parseMiscChildren_strokes n.children _ acc hloop
    rw [hnil] at hcol
    have hvs : Except.ok ([] : List Nat) = Except.ok vs := hcol
    cases hvs
    have hempty : acc.stroke_counts = [] := by simpa using hcnt
    unfold parse_misc
    simp only [hloop, hempty]
  · intro t h'
    unfold parse_misc at h'
    cases hloop : parseMiscChildren n.children ⟨none, [], none, none⟩ with
    | error e =>
      simp only [hloop] at h'
      cases h'
      exact absurd rfl (parseMiscChildren_no_missing n.children _ _ hloop t)
    | ok acc =>
      simp only [hloop] at h'
      cases hsc : acc.stroke_counts with
      | nil =>
        simp only [hsc] at h'
        cases h'
        rfl
      | cons s rest =>
        simp only [hsc] at h'
        cases h'

/-- A misc element with three stroke_count children interleaved with a
grade child. -/
def miscThreeStrokes : XmlNode :=
  .mk "misc" [] ""
    [elemT "stroke_count" "4", elemT "grade" "8", elemT "stroke_count" "5",
     elemT "stroke_count" "6"]

/-- Witness for C5: first stroke count 4 is canonical and 5, 6 become
miscounts; removing all stroke_count children from an otherwise valid misc
element yields the missing-stroke_count error. -/
theorem misc_stroke_counts_witness :
    collectResults strokeParse
        (miscThreeStrokes.children.filter (fun c => c.tag == "stroke_count")) =
      .ok (4 :: [5, 6]) ∧
    parse_misc (XmlNode.mk "misc" [] "" [elemT "grade" "8"]) =
      .error (.missingTag "stroke_count") := by
  constructor
  · exact (misc_stroke_counts miscThreeStrokes).1
      ⟨4, [5, 6], some Grade.Jouyou, none, none⟩ (by decide)
  · exact (misc_stroke_counts (XmlNode.mk "misc" [] "" [elemT "grade" "8"])).2.1
      ⟨some Grade.Jouyou, [], none, none⟩ (by decide) rfl

/-! Helper lemmas about `collectResults` (entry collection) used by the
load-level claims. -/

/-- `collectResults` propagates the first error in list order: if every
element before `c` succeeds and `c` fails with `e`, the whole collection
fails with `e`. -/
theorem collectResults_first_error {α β : Type} (f : α → Except ParseError β) :
    ∀ (pre : List α) (c : α) (post : List α) (e : ParseError),
    (∀ x ∈ pre, ∃ b, f x = .ok b) → f c = .error e →
    collectResults f (pre ++ c :: post) = .error e := by
  intro pre
  induction pre with
  | nil =>
    intro c post e _ hc
    simp only [List.nil_append, collectResults, hc]
  | cons a pre ih =>
    intro c post e hpre hc
    obtain ⟨b, hb⟩ := hpre a (List.mem_cons_self a pre)
    have hrec := ih c post e (fun x hx => hpre x (List.mem_cons_of_mem a hx)) hc
    have hrec2 : collectResults f (pre.append (c :: post)) = .error e := hrec
    simp only [List.cons_append, collectResults, hb, hrec, hrec2]

/-- Every element of a successful `collectResults` output comes from a
successful application of `f` to some input element. -/
theorem collectResults_ok_mem {α β : Type} (f : α → Except ParseError β) :
    ∀ (l : List α) (bs : List β), collectResults f l = .ok bs →
      ∀ b ∈ bs, ∃ a, a ∈ l ∧ f a = .ok b := by
  intro l
  induction l with
  | nil =>
    intro bs h b hb
    simp only [collectResults] at h
    cases h
    cases hb
  | cons a rest ih =>
    intro bs h b hb
    simp only [collectResults] at h
    cases hfa : f a with
    | error e => simp only [hfa] at h; cases h
    | ok b0 =>
      simp only [hfa] at h
      cases hcr : collectResults f rest with
      | error e => simp only [hcr] at h; cases h
      | ok bs0 =>
        simp only [hcr] at h
        cases h
        rcases List.mem_cons.mp hb with h1 | h2
        · subst h1
          exact ⟨a, List.mem_cons_self a rest, hfa⟩
        · obtain ⟨a', ha', hfa'⟩ := ih bs0 hcr b h2
          exact ⟨a', List.mem_cons_of_mem a ha', hfa'⟩

/-! Claim C4: invariants of loaded entries. -/

/-- A successful text extraction never returns the empty string. -/
theorem get_node_text_ok (n : XmlNode) (t : String)
    (h : get_node_text n = .ok t) : t ≠ "" := by
  unfold get_node_text at h
  split at h
  · cases h
  · next hne =>
    cases h
    exact hne

/-- The entry child loop only ever stores a literal slot obtained from a
successful (hence non-empty) text extraction. -/
theorem parseEntryChildren_literal (lookup : Nat → Except ParseError String) :
    ∀ (cs : List XmlNode) (s s' : EntrySlots),
    parseEntryChildren lookup cs s = .ok s' →
    s'.literal_op = s.literal_op ∨ ∃ t, s'.literal_op = some t ∧ t ≠ "" := by
  intro cs
  induction cs with
  | nil =>
    intro s s' h
    simp only [parseEntryChildren] at h
    cases h
    exact Or.inl rfl
  | cons c rest ih =>
    intro s s' h
    simp only [parseEntryChildren] at h
    by_cases h1 : c.tag = "literal"
    · rw [if_pos h1] at h
      cases ht : get_node_text c with
      | error e => simp only [ht] at h; cases h
      | ok t =>
        simp only [ht] at h
        rcases ih _ _ h with heq | hex
        · exact Or.inr ⟨t, heq, get_node_text_ok c t ht⟩
        · exact Or.inr hex
    rw [if_neg h1] at h
    by_cases h2 : c.tag = "codepoint"
    · rw [if_pos h2] at h
      cases hcp : collectResults parse_codepoint
          (c.children.filter (fun cc => cc.tag == "cp_value")) with
      | error e => simp only [hcp] at h; cases h
      | ok cps =>
        simp only [hcp] at h
        have hres := ih _ _ h
        exact hres
    rw [if_neg h2] at h
    by_cases h3 : c.tag = "radical"
    · rw [if_pos h3] at h
      cases hrd : collectResults (parse_radical lookup)
          (c.children.filter (fun cc => cc.tag == "rad_value")) with
      | error e => simp only [hrd] at h; cases h
      | ok rads =>
        simp only [hrd] at h
        have hres := ih _ _ h
        exact hres
    rw [if_neg h3] at h
    by_cases h4 : c.tag = "misc"
    · rw [if_pos h4] at h
      cases hm : parse_misc c with
      | error e => simp only [hm] at h; cases h
      | ok m =>
        simp only [hm] at h
        have hres := ih _ _ h
        exact hres
    rw [if_neg h4] at h
    by_cases h5 : c.tag = "dic_number"
    · rw [if_pos h5] at h
      cases hdr : parse_dic_ref_group c with
      | error e => simp only [hdr] at h; cases h
      | ok drs =>
        simp only [hdr] at h
        have hres := ih _ _ h
        exact hres
    rw [if_neg h5] at h
    by_cases h6 : c.tag = "reading_meaning"
    · rw [if_pos h6] at h
      cases hrm : parse_reading_meanings c with
      | error e => simp only [hrm] at h; cases h
      | ok p =>
        simp only [hrm] at h
        have hres := ih _ _ h
        exact hres
    rw [if_neg h6] at h
    exact ih _ _ h

/-- Every entry produced by `parse_entry` has a non-empty literal. -/
theorem parse_entry_literal (lookup : Nat → Except ParseError String)
    (n : XmlNode) (en : Entry) (h : parse_entry lookup n = .ok en) :
    en.literal ≠ "" := by
  unfold parse_entry at h
  cases hs : parseEntryChildren lookup n.children {} with
  | error e => simp only [hs] at h; cases h
  | ok s =>
    simp only [hs] at h
    cases hm : s.misc_op with
    | none => simp only [hm] at h; cases h
    | some misc =>
      simp only [hm] at h
      cases hl : s.literal_op with
      | none => simp only [hl] at h; cases h
      | some lit =>
        simp only [hl] at h
        cases hcp : s.codepoints_op with
        | none => simp only [hcp] at h; cases h
        | some cps =>
          simp only [hcp] at h
          cases hrd : s.radicals_op with
          | none => simp only [hrd] at h; cases h
          | some rads =>
            simp only [hrd] at h
            cases h
            rcases parseEntryChildren_literal lookup n.children {} s hs with
              heq | ⟨t, hteq, htne⟩
            · rw [hl] at heq
              cases heq
            · rw [hl] at hteq
              cases hteq
              exact htne

/-- A character element whose sole stroke_count child has text "0", inside an
otherwise well-formed document. -/
def charZeroStrokes : XmlNode :=
  .mk "character" [] ""
    [elemT "literal" "日",
     .mk "codepoint" [] "" [.mk "cp_value" [("cp_type", "ucs")] "65e5" []],
     .mk "radical" [] "" [],
     .mk "misc" [] "" [elemT "stroke_count" "0"]]

def docZeroStrokes : XmlNode :=
  .mk "" [] "" [.mk "kanjidic2" [] "" [headerEx, charZeroStrokes]]

/-- Counterexample to C4: a document whose stroke_count text is "0" loads
successfully into an Entry with `stroke_count = 0`, violating the claimed
`stroke_count ≥ 1` bound. -/
theorem load_accepts_zero_stroke_count :
    Kanjidic.from_doc lkEx docZeroStrokes =
      .ok ⟨4, "1.0", "2024-01-01",
        [⟨"日", [⟨"ucs", "65e5"⟩], [], [], [], 0, [], none, none, none, []⟩]⟩ ∧
    ¬ 1 ≤ (Entry.mk "日" [⟨"ucs", "65e5"⟩] [] [] [] 0 [] none none none
      []).stroke_count := by
  exact ⟨by decide, by decide⟩

/-- Claim C4 (amended): every Entry produced by a successful load has a
non-empty literal; the stroke count is whatever unsigned integer the first
stroke_count child's text parses to, which the code does not bound below
(it may be 0). -/
theorem load_entry_literal_nonempty (lookup : Nat → Except ParseError String)
    (doc : XmlNode) (d : Kanjidic) (hd : Kanjidic.from_doc lookup doc = .ok d) :
    ∀ en ∈ d.entries, en.literal ≠ "" := by
  intro en hen
  unfold Kanjidic.from_doc at hd
  cases hr : find_child_tag_err doc "kanjidic2" with
  | error e => simp only [hr] at hd; cases hd
  | ok root =>
    simp only [hr] at hd
    cases hh : find_child_tag_err root "header" with
    | error e => simp only [hh] at hd; cases hd
    | ok header =>
      simp only [hh] at hd
      cases hph : parse_header header with
      | error e => simp only [hph] at hd; cases hd
      | ok fdc =>
        simp only [hph] at hd
        cases hce : collectResults (parse_entry lookup) (characterNodes root) with
        | error e => simp only [hce] at hd; cases hd
        | ok entries =>
          simp only [hce] at hd
          cases hd
          obtain ⟨a, _, hfa⟩ := collectResults_ok_mem _ _ _ hce en hen
          exact parse_entry_literal lookup a en hfa

/-- Witness for the amended C4 at the zero-stroke document. -/
theorem load_entry_literal_nonempty_witness :
    (Entry.mk "日" [⟨"ucs", "65e5"⟩] [] [] [] 0 [] none none none
      []).literal ≠ "" :=
  load_entry_literal_nonempty lkEx docZeroStrokes
    ⟨4, "1.0", "2024-01-01",
      [⟨"日", [⟨"ucs", "65e5"⟩], [], [], [], 0, [], none, none, none, []⟩]⟩
    (by decide)
    (Entry.mk "日" [⟨"ucs", "65e5"⟩] [] [] [] 0 [] none none none [])
    (by decide)

/-! Claim C8: load is all-or-nothing and fails with the first error in
document order. -/

/-- Claim C8: once the root is located, either the load returns a Document
whose entries are exactly the successful parses of ALL character children (in
document order), or it returns an error — and when the header parses and the
first failing character child is `c` (every character before it parses), the
load's error is exactly `c`'s error.  By the return type no partial Document
can be produced. -/
theorem from_doc_all_or_nothing (lookup : Nat → Except ParseError String)
    (doc root : XmlNode)
    (hroot : find_child_tag_err doc "kanjidic2" = .ok root) :
    (∀ d, Kanjidic.from_doc lookup doc = .ok d →
      collectResults (parse_entry lookup) (characterNodes root) = .ok d.entries) ∧
    (∀ header fv dbv cd,
      find_child_tag_err root "header" = .ok header →
      parse_header header = .ok (fv, dbv, cd) →
      ∀ pre c post e, characterNodes root = pre ++ c :: post →
        (∀ x ∈ pre, ∃ en, parse_entry lookup x = .ok en) →
        parse_entry lookup c = .error e →
        Kanjidic.from_doc lookup doc = .error e) := by
  constructor
  · intro d hd
    unfold Kanjidic.from_doc at hd
    simp only [hroot] at hd
    cases hh : find_child_tag_err root "header" with
    | error e => simp only [hh] at hd; cases hd
    | ok header =>
      simp only [hh] at hd
      cases hph : parse_header header with
      | error e => simp only [hph] at hd; cases hd
      | ok fdc =>
        simp only [hph] at hd
        cases hce : collectResults (parse_entry lookup) (characterNodes root) with
        | error e => simp only [hce] at hd; cases hd
        | ok entries =>
          simp only [hce] at hd
          cases hd
          rfl
  · intro header fv dbv cd hh hph pre c post e hsplit hpre hc
    have hfe := collectResults_first_error (parse_entry lookup) pre c post e hpre hc
    unfold Kanjidic.from_doc
    simp only [hroot, hh, hph, hsplit, hfe]

/-- A character element lacking the mandatory misc group. -/
def charNoMisc : XmlNode :=
  .mk "character" [] "" [elemT "literal" "月"]

def docFirstError : XmlNode :=
  .mk "" [] "" [.mk "kanjidic2" [] "" [headerEx, charTwoGrades, charNoMisc]]

/-- Witness for C8: in a document whose first character parses and whose
second lacks its misc group, the load fails with exactly the second
character's missing-misc error. -/
theorem from_doc_all_or_nothing_witness :
    Kanjidic.from_doc lkEx docFirstError = .error (.missingTag "misc") := by
  refine (from_doc_all_or_nothing lkEx docFirstError
    (.mk "kanjidic2" [] "" [headerEx, charTwoGrades, charNoMisc]) rfl).2
    headerEx 4 "1.0" "2024-01-01" rfl (by decide)
    [charTwoGrades] charNoMisc [] (.missingTag "misc") rfl ?_ (by decide)
  intro x hx
  have hxe : x = charTwoGrades := by
    cases hx with
    | head => rfl
    | tail _ hmem => cases hmem
  subst hxe
  exact ⟨⟨"日", [], [], [], [], 4, [], some (Grade.Kyouiku 2), none, none, []⟩,
    by decide⟩
